import Mathlib

/-
  Shallow embedding of the to-do-list backend's access-control and
  state-transition layer (projects/views.py), with the Task completion
  transition modelled from the spec where the model code is absent.
  Entities are records, the database is lists of rows, and Django queryset
  filters become List.filter with the same boolean conditions.
-/

namespace ToDo

/-- An authenticated user: primary key and the superuser flag the views check. -/
structure User where
  id : Nat
  is_superuser : Bool
deriving DecidableEq, Repr

/-- Team row: lead (FK), members (many-to-many, as a list of user ids), active flag. -/
structure Team where
  id : Nat
  name : String
  description : String
  team_lead_id : Nat
  members : List Nat
  is_active : Bool
deriving DecidableEq, Repr

/-- Task row. `due_date`, `completed_at` are nullable; dates and timestamps are Int. -/
structure Task where
  id : Nat
  team_id : Nat
  responsible_id : Option Nat
  status : String
  priority : String
  is_completed : Bool
  due_date : Option Int
  completed_at : Option Int
  created_at : Int
deriving DecidableEq, Repr

/-- Project row with its many-to-many set of attached task ids. -/
structure Project where
  id : Nat
  team_id : Nat
  status : String
  task_ids : List Nat
deriving DecidableEq, Repr

/-- CalendarEvent row: strictly owner-scoped. -/
structure CalendarEvent where
  id : Nat
  owner_id : Nat
  title : String
  start_time : Int
deriving DecidableEq, Repr

/-- The relational store. -/
structure DB where
  teams : List Team
  tasks : List Task
  projects : List Project
  events : List CalendarEvent
deriving DecidableEq, Repr

/-- The error taxonomy raised by the views (DRF exceptions / 404 responses). -/
inductive ApiError where
  | notFound
  | permissionDenied
  | validationError (field : String)
deriving DecidableEq, Repr

/-- The repeated OR-condition `team_lead == user or members.filter(id=user.id).exists()`. -/
def Team.hasUser (t : Team) (uid : Nat) : Bool :=
  t.team_lead_id == uid || t.members.contains uid

namespace TeamViewSet

/-- TeamViewSet.get_queryset: `filter(Q(team_lead=user) | Q(members=user)).distinct()`. -/
def get_queryset (db : DB) (user : User) : List Team :=
  db.teams.filter (fun t => t.team_lead_id == user.id || t.members.contains user.id)

end TeamViewSet

namespace TaskViewSet

/-- The join condition of `filter(Q(team__team_lead=user) | Q(team__members=user))`:
some team row matches the task's team FK and has the user as lead or member. -/
def visibleTo (db : DB) (uid : Nat) (tk : Task) : Bool :=
  db.teams.any (fun t => t.id == tk.team_id && t.hasUser uid)

/-- TaskViewSet.get_queryset: the scoped, distinct task queryset. -/
def get_queryset (db : DB) (user : User) : List Task :=
  db.tasks.filter (visibleTo db user.id)

/-- TaskViewSet._validate_team_access, lines 137-154 of views.py. -/
def validate_team_access (user : User) (team : Option Team)
    (responsible : Option Nat) : Except ApiError Unit :=
  match team with
  | none => .error (.validationError "team")
  | some t =>
    let is_team_member := t.team_lead_id == user.id || t.members.contains user.id
    if !is_team_member && !user.is_superuser then
      .error .permissionDenied
    else
      match responsible with
      | none => .ok ()
      | some rid =>
        let is_responsible_in_team :=
          rid == t.team_lead_id || t.members.contains rid
        if !is_responsible_in_team then
          .error (.validationError "responsible")
        else
          .ok ()

/-- TaskViewSet.perform_create: validates `validated_data.get('team')` and
`validated_data.get('responsible')` before saving. -/
def perform_create (user : User) (team : Option Team)
    (responsible : Option Nat) : Except ApiError Unit :=
  validate_team_access user team responsible

/-- TaskViewSet.perform_update: `validated_data.get('team', current_task.team)` and
`validated_data.get('responsible', current_task.responsible)` — an absent payload
field (outer `none`) falls back to the current task's value. -/
def perform_update (user : User) (payload_team : Option (Option Team))
    (payload_responsible : Option (Option Nat))
    (current_team : Team) (current_responsible : Option Nat) : Except ApiError Unit :=
  let team := payload_team.getD (some current_team)
  let responsible := payload_responsible.getD current_responsible
  validate_team_access user team responsible

/-- Modelled from the spec: `Task.complete` lives in projects/models.py, which is
not part of the provided sources; the spec states completion sets
is_completed=true, status to "done" and completed_at to now. -/
def Task.complete (tk : Task) (now : Int) : Task :=
  { tk with is_completed := true, status := "done", completed_at := some now }

/-- TaskViewSet.complete action: calls task.complete() on the retrieved task. -/
def complete_action (tk : Task) (now : Int) : Task :=
  Task.complete tk now

/-- TaskViewSet.reopen action, lines 176-184 of views.py. -/
def reopen (tk : Task) : Task :=
  { tk with is_completed := false, status := "todo", completed_at := none }

/-- TaskViewSet.overdue action: filters `self.queryset` — the UNSCOPED class
attribute covering every task — by `due_date__lt=today, is_completed=False`
(a NULL due_date never satisfies a `__lt` lookup). -/
def overdue_action (db : DB) (today : Int) : List Task :=
  db.tasks.filter (fun tk =>
    (match tk.due_date with
     | some d => decide (d < today)
     | none => false) && !tk.is_completed)

/-- TaskViewSet.today action: filters `self.queryset` — again the unscoped class
attribute — by `due_date=today`. -/
def today_action (db : DB) (today : Int) : List Task :=
  db.tasks.filter (fun tk => tk.due_date == some today)

end TaskViewSet

/-- The teams led by the user, as filtered rows. -/
def leadTeams (db : DB) (uid : Nat) : List Team :=
  db.teams.filter (fun t => t.team_lead_id == uid)

/-- The teams the user is an explicit member of. -/
def memberTeams (db : DB) (uid : Nat) : List Team :=
  db.teams.filter (fun t => t.members.contains uid)

/-- The spec-side overdue predicate: due_date strictly before today and not completed. -/
def overduePred (today : Int) (tk : Task) : Bool :=
  (match tk.due_date with
   | some d => decide (d < today)
   | none => false) && !tk.is_completed

/-- Python dict(qs.values(key).annotate(count=Count(id)).values_list(key, count)):
each key value present among the rows maps to its row count; absent values are
simply missing from the mapping. -/
def countsBy (f : Task → String) (tasks : List Task) : List (String × Nat) :=
  ((tasks.map f).dedup).map (fun v => (v, tasks.countP (fun tk => f tk == v)))

/-- The payload assembled by the dashboard_stats view. -/
structure DashboardStats where
  total_tasks : Nat
  completed_tasks : Nat
  overdue_tasks : Nat
  in_progress_tasks : Nat
  total_projects : Nat
  active_projects : Nat
  total_teams : Nat
  tasks_by_priority : List (String × Nat)
  tasks_by_status : List (String × Nat)
  recent_tasks : List Task
deriving DecidableEq, Repr

/-- dashboard_stats view, lines 279-327 of views.py. -/
def dashboard_stats (db : DB) (user : User) (today : Int) : DashboardStats :=
  let user_teams := db.teams.filter (fun t =>
    t.team_lead_id == user.id || t.members.contains user.id)
  let visible_tasks := db.tasks.filter (fun tk =>
    user_teams.any (fun t => t.id == tk.team_id))
  let visible_projects := db.projects.filter (fun p =>
    user_teams.any (fun t => t.id == p.team_id))
  { total_tasks := visible_tasks.length
    completed_tasks := (visible_tasks.filter (fun tk => tk.is_completed)).length
    overdue_tasks := (visible_tasks.filter (fun tk =>
      (match tk.due_date with
       | some d => decide (d < today)
       | none => false) && !tk.is_completed)).length
    in_progress_tasks := (visible_tasks.filter (fun tk => tk.status == "progress")).length
    total_projects := visible_projects.length
    active_projects := (visible_projects.filter (fun p => p.status == "active")).length
    total_teams := (user_teams.filter (fun t => t.is_active)).length
    tasks_by_priority := countsBy (fun tk => tk.priority) visible_tasks
    tasks_by_status := countsBy (fun tk => tk.status) visible_tasks
    recent_tasks := (visible_tasks.mergeSort (fun a b => b.created_at ≤ a.created_at)).take 5 }

/-- Outcome of the join action's response. -/
inductive JoinResult where
  | notFound
  | alreadyMember (team_id : Nat)
  | joined (team_id : Nat)
deriving DecidableEq, Repr

/-- Django m2m add: a no-op when the user is already in the set. -/
def Team.addMember (t : Team) (uid : Nat) : Team :=
  if t.members.contains uid then t else { t with members := t.members ++ [uid] }

/-- An update payload for a team; `none` marks a field the caller did not send. -/
structure TeamPayload where
  name : Option String
  description : Option String
  is_active : Option Bool
  team_lead_id : Option Nat
deriving DecidableEq, Repr

namespace TeamViewSet

/-- TeamViewSet.join, lines 94-113 of views.py: look up the active team by pk (404
response otherwise); an existing lead or member gets the idempotent
already-a-member response with nothing written; otherwise the user is added to
the members set. -/
def join (db : DB) (user : User) (pk : Nat) : JoinResult × DB :=
  match db.teams.find? (fun t => t.id == pk && t.is_active) with
  | none => (.notFound, db)
  | some team =>
    if team.team_lead_id == user.id || team.members.contains user.id then
      (.alreadyMember team.id, db)
    else
      (.joined team.id,
        { db with teams := db.teams.map (fun t =>
            if t.id == team.id then t.addMember user.id else t) })

/-- serializer.save(team_lead=team.team_lead): payload fields are applied, but the
team_lead keyword argument overrides whatever team_lead the payload carried. -/
def save_with_lead (t : Team) (p : TeamPayload) (lead_id : Nat) : Team :=
  { t with
    name := p.name.getD t.name
    description := p.description.getD t.description
    is_active := p.is_active.getD t.is_active
    team_lead_id := lead_id }

/-- TeamViewSet.perform_update, lines 52-56 of views.py: only the lead or a
superuser may update, and the row is saved with the pre-update team_lead. -/
def perform_update (user : User) (team : Team) (p : TeamPayload) :
    Except ApiError Team :=
  if !(user.is_superuser || team.team_lead_id == user.id) then
    .error .permissionDenied
  else
    .ok (save_with_lead team p team.team_lead_id)

end TeamViewSet

namespace ProjectViewSet

/-- The join condition of ProjectViewSet.get_queryset's scoping filter. -/
def visibleTo (db : DB) (uid : Nat) (p : Project) : Bool :=
  db.teams.any (fun t => t.id == p.team_id && t.hasUser uid)

/-- ProjectViewSet.get_queryset: the scoped, distinct project queryset. -/
def get_queryset (db : DB) (user : User) : List Project :=
  db.projects.filter (visibleTo db user.id)

/-- ProjectViewSet.add_task, lines 247-260 of views.py: get_object resolves pk
inside the scoped queryset (404 when absent); Task.objects.get(id=task_id,
team=project.team) raises DoesNotExist — answered with a 404 — unless a task
with that id belongs to the project's team; on success the task is attached to
the project's m2m set (an idempotent add). -/
def add_task (db : DB) (user : User) (pk : Nat) (task_id : Option Nat) :
    Option ApiError × DB :=
  match (get_queryset db user).find? (fun p => p.id == pk) with
  | none => (some .notFound, db)
  | some project =>
    match db.tasks.find? (fun tk =>
        task_id == some tk.id && tk.team_id == project.team_id) with
    | none => (some .notFound, db)
    | some tk =>
      (none,
        { db with projects := db.projects.map (fun p =>
            if p.id == project.id then
              { p with task_ids :=
                  if p.task_ids.contains tk.id then p.task_ids
                  else p.task_ids ++ [tk.id] }
            else p) })

end ProjectViewSet

/-- A calendar event creation payload; any owner it carries is ignored. -/
structure EventPayload where
  owner_id : Option Nat
  title : String
  start_time : Int
deriving DecidableEq, Repr

namespace CalendarEventViewSet

/-- CalendarEventViewSet.get_queryset: strictly owner-filtered, ordered by start_time. -/
def get_queryset (db : DB) (user : User) : List CalendarEvent :=
  (db.events.filter (fun e => e.owner_id == user.id)).mergeSort
    (fun a b => a.start_time ≤ b.start_time)

/-- CalendarEventViewSet.perform_create: serializer.save(owner=request.user) stamps
the requester as owner, overriding any owner in the payload. -/
def perform_create (db : DB) (user : User) (p : EventPayload) (new_id : Nat) : DB :=
  { db with events := db.events ++ [⟨new_id, user.id, p.title, p.start_time⟩] }

end CalendarEventViewSet

/-- Pushing a filter under List.any. -/
theorem any_of_filter {α : Type} (l : List α) (p q : α → Bool) :
    (l.filter p).any q = l.any (fun t => p t && q t) := by
  induction l with
  | nil => rfl
  | cons a l ih =>
    cases hpa : p a <;>
      simp [List.filter_cons, List.any_cons, hpa, ih]

/-- List.any only depends on the predicate's values. -/
theorem any_congr_fun {α : Type} (l : List α) (p q : α → Bool) (h : ∀ t, p t = q t) :
    l.any p = l.any q := by
  induction l with
  | nil => rfl
  | cons a l ih => simp [List.any_cons, h a, ih]

/-- The dashboard's visible_tasks queryset coincides with TaskViewSet's scoped queryset. -/
theorem dashboard_visible_tasks (db : DB) (uid : Nat) :
    db.tasks.filter (fun tk =>
      (db.teams.filter (fun t => t.team_lead_id == uid || t.members.contains uid)).any
        (fun t => t.id == tk.team_id)) =
    db.tasks.filter (TaskViewSet.visibleTo db uid) := by
  apply List.filter_congr
  intro tk _
  rw [any_of_filter, TaskViewSet.visibleTo]
  apply any_congr_fun
  intro t
  simp [Team.hasUser, Bool.and_comm]

/-- C8: a user sees a team in the listing iff the user is its lead or one of its members. -/
theorem team_visibility_iff (db : DB) (u : User) (t : Team) :
    t ∈ TeamViewSet.get_queryset db u ↔
      t ∈ db.teams ∧ (t.team_lead_id = u.id ∨ u.id ∈ t.members) := by
  simp [TeamViewSet.get_queryset, List.mem_filter, List.contains, List.elem_eq_mem]

/-- Concrete instance of C8: a lead sees their team; an outsider does not. -/
theorem team_visibility_iff_witness :
    let t : Team := { id := 1, name := "Eng", description := "", team_lead_id := 5,
                      members := [5], is_active := true }
    let db : DB := { teams := [t], tasks := [], projects := [], events := [] }
    t ∈ TeamViewSet.get_queryset db { id := 5, is_superuser := false } ∧
      t ∉ TeamViewSet.get_queryset db { id := 2, is_superuser := false } := by
  constructor
  · exact (team_visibility_iff _ _ _).mpr (by simp)
  · intro h
    have := (team_visibility_iff _ _ _).mp h
    simp at this

/-- C5: on any task visible to the requesting user, the complete action sets
is_completed=true, status "done" and a non-null completed_at whatever the prior
state; the reopen action sets is_completed=false, status "todo" and clears
completed_at whatever the prior status. -/
theorem complete_reopen_transitions (db : DB) (u : User) (tk : Task) (now : Int)
    (h : tk ∈ TaskViewSet.get_queryset db u) :
    ((TaskViewSet.complete_action tk now).is_completed = true ∧
      (TaskViewSet.complete_action tk now).status = "done" ∧
      (TaskViewSet.complete_action tk now).completed_at ≠ none) ∧
    ((TaskViewSet.reopen tk).is_completed = false ∧
      (TaskViewSet.reopen tk).status = "todo" ∧
      (TaskViewSet.reopen tk).completed_at = none) := by
  simp [TaskViewSet.complete_action, TaskViewSet.Task.complete, TaskViewSet.reopen]

/-- Concrete instance of C5: reopening a visible task that is mid-"progress". -/
theorem complete_reopen_transitions_witness :
    ((TaskViewSet.complete_action
        ⟨10, 1, none, "progress", "low", false, none, none, 0⟩ 7).is_completed = true ∧
      (TaskViewSet.complete_action
        ⟨10, 1, none, "progress", "low", false, none, none, 0⟩ 7).status = "done" ∧
      (TaskViewSet.complete_action
        ⟨10, 1, none, "progress", "low", false, none, none, 0⟩ 7).completed_at ≠ none) ∧
    ((TaskViewSet.reopen
        ⟨10, 1, none, "progress", "low", false, none, none, 0⟩).is_completed = false ∧
      (TaskViewSet.reopen
        ⟨10, 1, none, "progress", "low", false, none, none, 0⟩).status = "todo" ∧
      (TaskViewSet.reopen
        ⟨10, 1, none, "progress", "low", false, none, none, 0⟩).completed_at = none) :=
  complete_reopen_transitions
    ⟨[⟨1, "A", "", 5, [5], true⟩],
      [⟨10, 1, none, "progress", "low", false, none, none, 0⟩], [], []⟩
    ⟨5, false⟩ ⟨10, 1, none, "progress", "low", false, none, none, 0⟩ 7 (by decide)

/-- C6: "overdue" means due_date strictly before today and not completed; the overdue
list action filters by exactly this predicate, and so does the dashboard overdue
count over the user's visible tasks; a yesterday-due incomplete task is overdue
while its completed variant is not. -/
theorem overdue_predicate_spec (db : DB) (today : Int) (tk : Task) :
    (overduePred today tk = true ↔
      (∃ d, tk.due_date = some d ∧ d < today) ∧ tk.is_completed = false) ∧
    (tk ∈ TaskViewSet.overdue_action db today ↔
      tk ∈ db.tasks ∧ overduePred today tk = true) ∧
    (∀ u : User, (dashboard_stats db u today).overdue_tasks =
      ((db.tasks.filter (TaskViewSet.visibleTo db u.id)).filter
        (overduePred today)).length) ∧
    (tk.due_date = some (today - 1) →
      (tk.is_completed = false → overduePred today tk = true) ∧
      (tk.is_completed = true → overduePred today tk = false)) := by
  refine ⟨?_, ?_, ?_, ?_⟩
  · cases hd : tk.due_date <;> simp [overduePred, hd]
  · simp [TaskViewSet.overdue_action, List.mem_filter, overduePred]
  · intro u
    have h := dashboard_visible_tasks db u.id
    simp only [dashboard_stats]
    rw [h]
    rfl
  · intro hdue
    constructor
    · intro hc
      simp [overduePred, hdue, hc]
    · intro hc
      simp [overduePred, hc]

/-- Concrete instance of C6: due yesterday and incomplete is overdue. -/
theorem overdue_predicate_spec_witness :
    overduePred 0 ⟨1, 1, none, "todo", "low", false, some (-1), none, 0⟩ = true :=
  ((overdue_predicate_spec ⟨[], [], [], []⟩ 0
      ⟨1, 1, none, "todo", "low", false, some (-1), none, 0⟩).2.2.2
    (by decide)).1 rfl

/-- C1, counterexample: user 2 is lead or member of no team, yet the overdue action
returns team 1's task to them — the action filters the unscoped class queryset,
not the user-scoped one. -/
theorem task_scope_counterexample :
    (⟨10, 1, none, "todo", "low", false, some (-1), none, 0⟩ : Task) ∈
      TaskViewSet.overdue_action
        ⟨[⟨1, "A", "", 5, [5], true⟩],
          [⟨10, 1, none, "todo", "low", false, some (-1), none, 0⟩], [], []⟩ 0 ∧
    TaskViewSet.visibleTo
      ⟨[⟨1, "A", "", 5, [5], true⟩],
        [⟨10, 1, none, "todo", "low", false, some (-1), none, 0⟩], [], []⟩
      2 ⟨10, 1, none, "todo", "low", false, some (-1), none, 0⟩ = false := by
  constructor
  · decide
  · decide

/-- C1 amended: the task list/read queryset is scoped to the distinct union of the
user's lead-teams and member-teams; the overdue and today actions, however, filter
the unscoped base queryset and return date-matching tasks of every team. -/
theorem task_scope_amended (db : DB) (u : User) (today : Int) (tk : Task) :
    (tk ∈ TaskViewSet.get_queryset db u ↔
      tk ∈ db.tasks ∧
        ∃ t ∈ (leadTeams db u.id ++ memberTeams db u.id).dedup, t.id = tk.team_id) ∧
    (tk ∈ TaskViewSet.overdue_action db today ↔
      tk ∈ db.tasks ∧ overduePred today tk = true) ∧
    (tk ∈ TaskViewSet.today_action db today ↔
      tk ∈ db.tasks ∧ tk.due_date = some today) := by
  refine ⟨?_, ?_, ?_⟩
  · simp only [TaskViewSet.get_queryset, List.mem_filter, TaskViewSet.visibleTo,
      List.any_eq_true, Bool.and_eq_true, beq_iff_eq, Team.hasUser, Bool.or_eq_true,
      leadTeams, memberTeams, List.mem_dedup, List.mem_append, List.contains,
      List.elem_eq_mem, decide_eq_true_eq]
    constructor
    · rintro ⟨hmem, t, ht, hid, hu⟩
      exact ⟨hmem, t, Or.elim hu (fun hl => Or.inl ⟨ht, hl⟩) (fun hm => Or.inr ⟨ht, hm⟩), hid⟩
    · rintro ⟨hmem, t, ht, hid⟩
      refine ⟨hmem, t, ?_, hid, ?_⟩
      · exact Or.elim ht (fun x => x.1) (fun x => x.1)
      · exact Or.elim ht (fun x => Or.inl x.2) (fun x => Or.inr x.2)
  · simp [TaskViewSet.overdue_action, List.mem_filter, overduePred]
  · simp [TaskViewSet.today_action, List.mem_filter]

/-- Concrete instance of the amended C1: the team lead does see their task in the
scoped list queryset. -/
theorem task_scope_amended_witness :
    (⟨10, 1, none, "todo", "low", false, some (-1), none, 0⟩ : Task) ∈
      TaskViewSet.get_queryset
        ⟨[⟨1, "A", "", 5, [5], true⟩],
          [⟨10, 1, none, "todo", "low", false, some (-1), none, 0⟩], [], []⟩
        ⟨5, false⟩ :=
  (task_scope_amended
      ⟨[⟨1, "A", "", 5, [5], true⟩],
        [⟨10, 1, none, "todo", "low", false, some (-1), none, 0⟩], [], []⟩
      ⟨5, false⟩ 0 ⟨10, 1, none, "todo", "low", false, some (-1), none, 0⟩).1.mpr
    (by decide)

/-- C3: task validation fails with ValidationError when the effective team is
absent; with PermissionDenied when the requester is neither lead nor member of it
and not a superuser; with ValidationError when the responsible user is outside
that team; the same check runs on create and update, and update defaults to the
task's current team and responsible when the payload omits them. -/
theorem task_validation_spec (user : User) (t : Team) (rid : Nat)
    (current_team : Team) (current_responsible : Option Nat) :
    (∀ responsible, TaskViewSet.validate_team_access user none responsible =
      .error (.validationError "team")) ∧
    (t.hasUser user.id = false → user.is_superuser = false →
      ∀ responsible, TaskViewSet.validate_team_access user (some t) responsible =
        .error .permissionDenied) ∧
    ((t.hasUser user.id = true ∨ user.is_superuser = true) →
      (rid == t.team_lead_id || t.members.contains rid) = false →
      TaskViewSet.validate_team_access user (some t) (some rid) =
        .error (.validationError "responsible")) ∧
    (∀ team responsible, TaskViewSet.perform_create user team responsible =
      TaskViewSet.validate_team_access user team responsible) ∧
    (TaskViewSet.perform_update user none none current_team current_responsible =
      TaskViewSet.validate_team_access user (some current_team) current_responsible) := by
  refine ⟨fun responsible => rfl, ?_, ?_, fun team responsible => rfl, rfl⟩
  · intro hm hs responsible
    rw [Team.hasUser] at hm
    simp only [TaskViewSet.validate_team_access, hm, hs, Bool.not_false, Bool.and_self,
      if_true]
  · intro hpass hresp
    rcases hpass with hm | hs
    · rw [Team.hasUser] at hm
      simp only [TaskViewSet.validate_team_access, hm, hresp, Bool.not_true,
        Bool.false_and, if_false, Bool.not_false, if_true]
      simp
    · simp only [TaskViewSet.validate_team_access, hs, hresp, Bool.not_true,
        Bool.and_false, if_false, Bool.not_false, if_true]
      simp

/-- Concrete instance of C3: an outsider creating a task under someone else's team
is rejected with PermissionDenied. -/
theorem task_validation_spec_witness :
    TaskViewSet.validate_team_access ⟨2, false⟩ (some ⟨1, "A", "", 5, [5], true⟩) none =
      .error .permissionDenied :=
  (task_validation_spec ⟨2, false⟩ ⟨1, "A", "", 5, [5], true⟩ 0
      ⟨1, "A", "", 5, [5], true⟩ none).2.1 (by decide) rfl none

/-- C10: an accepted team update keeps the pre-update team_lead, whatever
team_lead the payload carried. -/
theorem team_update_keeps_lead (user : User) (team : Team) (p : TeamPayload)
    (t2 : Team) (h : TeamViewSet.perform_update user team p = .ok t2) :
    t2.team_lead_id = team.team_lead_id := by
  unfold TeamViewSet.perform_update at h
  split at h
  · cases h
  · cases h
    rfl

/-- Concrete instance of C10: a payload asking to hand the lead to user 9 is
accepted but the saved lead is still user 5. -/
theorem team_update_keeps_lead_witness :
    (TeamViewSet.save_with_lead ⟨1, "A", "", 5, [5], true⟩
      ⟨none, none, none, some 9⟩ 5).team_lead_id = 5 :=
  team_update_keeps_lead ⟨5, false⟩ ⟨1, "A", "", 5, [5], true⟩
    ⟨none, none, none, some 9⟩ _ rfl

/-- Adding a member never changes the team's id. -/
theorem addMember_id (t : Team) (uid : Nat) : (t.addMember uid).id = t.id := by
  unfold Team.addMember
  split <;> rfl

/-- Adding a member never changes the active flag. -/
theorem addMember_active (t : Team) (uid : Nat) :
    (t.addMember uid).is_active = t.is_active := by
  unfold Team.addMember
  split <;> rfl

/-- After an add, the user counts as lead or member. -/
theorem hasUser_addMember (t : Team) (uid : Nat) :
    (t.addMember uid).hasUser uid = true := by
  unfold Team.addMember Team.hasUser
  split
  · next h => rw [h, Bool.or_true]
  · simp [List.contains, List.elem_eq_mem]

/-- The join write updates exactly the looked-up row, and the lookup still finds it. -/
theorem find?_join_map (l : List Team) (pk uid : Nat) (team : Team)
    (hf : l.find? (fun t => t.id == pk && t.is_active) = some team) :
    (l.map (fun t => if t.id == team.id then t.addMember uid else t)).find?
      (fun t => t.id == pk && t.is_active) = some (team.addMember uid) := by
  rw [List.find?_map]
  have hp : ((fun t : Team => t.id == pk && t.is_active) ∘
      (fun t => if t.id == team.id then t.addMember uid else t)) =
      (fun t : Team => t.id == pk && t.is_active) := by
    funext t
    simp only [Function.comp]
    split
    · rw [addMember_id, addMember_active]
    · rfl
  rw [hp, hf]
  simp

/-- Equation for join when no active team carries the pk. -/
theorem join_none (db : DB) (user : User) (pk : Nat)
    (hf : db.teams.find? (fun t => t.id == pk && t.is_active) = none) :
    TeamViewSet.join db user pk = (.notFound, db) := by
  unfold TeamViewSet.join
  rw [hf]

/-- Equation for join when the requester is already lead or member. -/
theorem join_member (db : DB) (user : User) (pk : Nat) (team : Team)
    (hf : db.teams.find? (fun t => t.id == pk && t.is_active) = some team)
    (hm : (team.team_lead_id == user.id || team.members.contains user.id) = true) :
    TeamViewSet.join db user pk = (.alreadyMember team.id, db) := by
  unfold TeamViewSet.join
  rw [hf]
  have hm2 : team.team_lead_id = user.id ∨ user.id ∈ team.members := by
    simpa [List.contains, List.elem_eq_mem] using hm
  simp [hm2]

/-- Equation for join when the requester is a genuine newcomer. -/
theorem join_nonmember (db : DB) (user : User) (pk : Nat) (team : Team)
    (hf : db.teams.find? (fun t => t.id == pk && t.is_active) = some team)
    (hm : (team.team_lead_id == user.id || team.members.contains user.id) = false) :
    TeamViewSet.join db user pk = (.joined team.id,
      { db with teams := db.teams.map (fun t =>
          if t.id == team.id then t.addMember user.id else t) }) := by
  unfold TeamViewSet.join
  rw [hf]
  have hm2 : ¬team.team_lead_id = user.id ∧ user.id ∉ team.members := by
    simpa [List.contains, List.elem_eq_mem] using hm
  simp [hm2.1, hm2.2]

/-- C4: join answers NotFound exactly when no active team carries the pk; a lead or
existing member gets the already-a-member result with the store untouched; a
non-member is recorded exactly once; and after any successful join a second join
reports already-a-member and writes nothing. -/
theorem team_join_spec (db : DB) (user : User) (pk : Nat) :
    ((TeamViewSet.join db user pk).1 = .notFound ↔
      ∀ t ∈ db.teams, ¬(t.id = pk ∧ t.is_active = true)) ∧
    (∀ team, db.teams.find? (fun t => t.id == pk && t.is_active) = some team →
      (team.hasUser user.id = true →
        TeamViewSet.join db user pk = (.alreadyMember team.id, db)) ∧
      (team.hasUser user.id = false →
        (TeamViewSet.join db user pk).1 = .joined team.id ∧
        (TeamViewSet.join db user pk).2.teams.find?
            (fun t => t.id == pk && t.is_active) = some (team.addMember user.id) ∧
        (team.addMember user.id).members.count user.id = 1)) ∧
    ((TeamViewSet.join db user pk).1 ≠ .notFound →
      ∃ tid, TeamViewSet.join ((TeamViewSet.join db user pk).2) user pk =
        (.alreadyMember tid, (TeamViewSet.join db user pk).2)) := by
  refine ⟨?_, ?_, ?_⟩
  · constructor
    · intro hres t ht hc
      cases hf : db.teams.find? (fun t => t.id == pk && t.is_active) with
      | none =>
        have := List.find?_eq_none.mp hf t ht
        simp [hc.1, hc.2] at this
      | some team =>
        by_cases hm : (team.team_lead_id == user.id || team.members.contains user.id) = true
        · rw [join_member db user pk team hf hm] at hres
          simp at hres
        · rw [join_nonmember db user pk team hf (by simpa using hm)] at hres
          simp at hres
    · intro hall
      cases hf : db.teams.find? (fun t => t.id == pk && t.is_active) with
      | none =>
        rw [join_none db user pk hf]
      | some team =>
        have hmem := List.mem_of_find?_eq_some hf
        have hp := List.find?_some hf
        simp only [Bool.and_eq_true, beq_iff_eq] at hp
        exact absurd ⟨hp.1, hp.2⟩ (hall team hmem)
  · intro team hf
    constructor
    · intro hm
      rw [Team.hasUser] at hm
      exact join_member db user pk team hf hm
    · intro hm
      rw [Team.hasUser] at hm
      have hj := join_nonmember db user pk team hf hm
      have hcont : team.members.contains user.id = false :=
        (Bool.or_eq_false_iff.mp hm).2
      have hnotmem : user.id ∉ team.members := by
        simpa [List.contains, List.elem_eq_mem] using hcont
      refine ⟨by rw [hj], ?_, ?_⟩
      · rw [hj]
        exact find?_join_map db.teams pk user.id team hf
      · unfold Team.addMember
        rw [if_neg (by simpa [List.contains, List.elem_eq_mem] using hnotmem)]
        simp [List.count_append, List.count_eq_zero]
        exact hnotmem
  · intro hres
    cases hf : db.teams.find? (fun t => t.id == pk && t.is_active) with
    | none =>
      rw [join_none db user pk hf] at hres
      simp at hres
    | some team =>
      by_cases hm : (team.team_lead_id == user.id || team.members.contains user.id) = true
      · refine ⟨team.id, ?_⟩
        have h1 := join_member db user pk team hf hm
        have h2 : (TeamViewSet.join db user pk).2 = db := by rw [h1]
        rw [h2]
        exact h1
      · have hm2 : (team.team_lead_id == user.id || team.members.contains user.id) = false := by
          simpa using hm
        have hj := join_nonmember db user pk team hf hm2
        refine ⟨team.id, ?_⟩
        have h2 : (TeamViewSet.join db user pk).2 =
            { db with teams := db.teams.map (fun t =>
                if t.id == team.id then t.addMember user.id else t) } := by
          rw [hj]
        rw [h2]
        have hf2 : ({ db with teams := db.teams.map (fun t =>
            if t.id == team.id then t.addMember user.id else t) } : DB).teams.find?
            (fun t => t.id == pk && t.is_active) = some (team.addMember user.id) :=
          find?_join_map db.teams pk user.id team hf
        have hm3 : ((team.addMember user.id).team_lead_id == user.id ||
            (team.addMember user.id).members.contains user.id) = true := by
          have h4 := hasUser_addMember team user.id
          rwa [Team.hasUser] at h4
        have h3 := join_member _ user pk (team.addMember user.id) hf2 hm3
        rw [h3, addMember_id]

/-- Concrete instance of C4: a first join adds the newcomer, and joining again is
the idempotent already-a-member answer with the store unchanged. -/
theorem team_join_spec_witness :
    ∃ tid, TeamViewSet.join
        ((TeamViewSet.join ⟨[⟨1, "A", "", 5, [5], true⟩], [], [], []⟩ ⟨2, false⟩ 1).2)
        ⟨2, false⟩ 1 =
      (.alreadyMember tid,
        (TeamViewSet.join ⟨[⟨1, "A", "", 5, [5], true⟩], [], [], []⟩ ⟨2, false⟩ 1).2) :=
  (team_join_spec ⟨[⟨1, "A", "", 5, [5], true⟩], [], [], []⟩ ⟨2, false⟩ 1).2.2
    (by decide)

/-- Equation: add_task when the project resolves but no matching task exists. -/
theorem add_task_no_task (db : DB) (user : User) (pk : Nat) (task_id : Option Nat)
    (project : Project)
    (hp : (ProjectViewSet.get_queryset db user).find? (fun p => p.id == pk) = some project)
    (ht : db.tasks.find? (fun tk =>
        task_id == some tk.id && tk.team_id == project.team_id) = none) :
    ProjectViewSet.add_task db user pk task_id = (some .notFound, db) := by
  unfold ProjectViewSet.add_task
  rw [hp]
  simp only [ht]

/-- Equation: add_task when the project resolves and a matching task is found. -/
theorem add_task_found (db : DB) (user : User) (pk : Nat) (task_id : Option Nat)
    (project : Project) (tk : Task)
    (hp : (ProjectViewSet.get_queryset db user).find? (fun p => p.id == pk) = some project)
    (ht : db.tasks.find? (fun tk2 =>
        task_id == some tk2.id && tk2.team_id == project.team_id) = some tk) :
    ProjectViewSet.add_task db user pk task_id = (none,
      { db with projects := db.projects.map (fun p =>
          if p.id == project.id then
            { p with task_ids :=
                if p.task_ids.contains tk.id then p.task_ids
                else p.task_ids ++ [tk.id] }
          else p) }) := by
  unfold ProjectViewSet.add_task
  rw [hp]
  simp only [ht]

/-- C2: with the target project visible, add_task answers NotFound — never
PermissionDenied — exactly when no task with the requested id belongs to the
project's team, and leaves the store untouched then; when such a task exists the
call succeeds and the task is attached to that project. -/
theorem add_task_spec (db : DB) (user : User) (pk : Nat) (task_id : Option Nat)
    (project : Project)
    (hvis : (ProjectViewSet.get_queryset db user).find?
      (fun p => p.id == pk) = some project) :
    ((ProjectViewSet.add_task db user pk task_id).1 ≠ some .permissionDenied) ∧
    ((∀ tk ∈ db.tasks, ¬(task_id = some tk.id ∧ tk.team_id = project.team_id)) →
      ProjectViewSet.add_task db user pk task_id = (some .notFound, db)) ∧
    (∀ tk, db.tasks.find? (fun tk2 =>
        task_id == some tk2.id && tk2.team_id == project.team_id) = some tk →
      (ProjectViewSet.add_task db user pk task_id).1 = none ∧
      ∃ p2 ∈ (ProjectViewSet.add_task db user pk task_id).2.projects,
        p2.id = project.id ∧ tk.id ∈ p2.task_ids) := by
  refine ⟨?_, ?_, ?_⟩
  · cases ht : db.tasks.find? (fun tk2 =>
        task_id == some tk2.id && tk2.team_id == project.team_id) with
    | none =>
      rw [add_task_no_task db user pk task_id project hvis ht]
      simp
    | some tk =>
      rw [add_task_found db user pk task_id project tk hvis ht]
      simp
  · intro hall
    have ht : db.tasks.find? (fun tk2 =>
        task_id == some tk2.id && tk2.team_id == project.team_id) = none := by
      apply List.find?_eq_none.mpr
      intro tk hmem hp
      simp only [Bool.and_eq_true, beq_iff_eq] at hp
      exact hall tk hmem ⟨hp.1, hp.2⟩
    exact add_task_no_task db user pk task_id project hvis ht
  · intro tk ht
    rw [add_task_found db user pk task_id project tk hvis ht]
    refine ⟨rfl, ?_⟩
    have hpm : project ∈ db.projects := by
      have h1 := List.mem_of_find?_eq_some hvis
      exact (List.mem_filter.mp h1).1
    refine ⟨(fun p => if p.id == project.id then
        { p with task_ids :=
            if p.task_ids.contains tk.id then p.task_ids
            else p.task_ids ++ [tk.id] }
      else p) project, List.mem_map_of_mem _ hpm, ?_, ?_⟩
    · simp
    · simp only [beq_self_eq_true, if_true]
      split
      · next hcon => simpa [List.contains, List.elem_eq_mem] using hcon
      · simp

/-- Concrete instance of C2: attaching a same-team task to a visible project succeeds. -/
theorem add_task_spec_witness :
    (ProjectViewSet.add_task
        ⟨[⟨1, "A", "", 5, [5], true⟩],
          [⟨10, 1, none, "todo", "low", false, none, none, 0⟩],
          [⟨100, 1, "planned", []⟩], []⟩
        ⟨5, false⟩ 100 (some 10)).1 = none :=
  ((add_task_spec _ ⟨5, false⟩ 100 (some 10) ⟨100, 1, "planned", []⟩ (by decide)).2.2
    ⟨10, 1, none, "todo", "low", false, none, none, 0⟩ (by decide)).1

/-- The dashboard's visible_projects queryset coincides with ProjectViewSet's
scoped queryset. -/
theorem dashboard_visible_projects (db : DB) (uid : Nat) :
    db.projects.filter (fun p =>
      (db.teams.filter (fun t => t.team_lead_id == uid || t.members.contains uid)).any
        (fun t => t.id == p.team_id)) =
    db.projects.filter (ProjectViewSet.visibleTo db uid) := by
  apply List.filter_congr
  intro p _
  rw [any_of_filter, ProjectViewSet.visibleTo]
  apply any_congr_fun
  intro t
  simp [Team.hasUser, Bool.and_comm]

/-- Membership in a grouped count: a key is present iff some row carries it, and it
maps to that key's row count. -/
theorem countsBy_mem (f : Task → String) (ts : List Task) (v : String) (n : Nat) :
    (v, n) ∈ countsBy f ts ↔
      (v ∈ ts.map f ∧ n = ts.countP (fun tk => f tk == v)) := by
  unfold countsBy
  constructor
  · intro h
    rcases List.mem_map.mp h with ⟨w, hw, heq⟩
    injection heq with h1 h2
    subst h1
    subst h2
    exact ⟨List.mem_dedup.mp hw, rfl⟩
  · rintro ⟨hv, rfl⟩
    exact List.mem_map.mpr ⟨v, List.mem_dedup.mpr hv, rfl⟩

/-- C7: every dashboard count is computed over exactly the tasks and projects of
teams where the user is lead or member, and the by-priority and by-status
groupings map exactly the values present among those tasks to their counts. -/
theorem dashboard_spec (db : DB) (u : User) (today : Int) :
    ((dashboard_stats db u today).total_tasks =
      (db.tasks.filter (TaskViewSet.visibleTo db u.id)).length) ∧
    ((dashboard_stats db u today).completed_tasks =
      ((db.tasks.filter (TaskViewSet.visibleTo db u.id)).filter
        (fun tk => tk.is_completed)).length) ∧
    ((dashboard_stats db u today).overdue_tasks =
      ((db.tasks.filter (TaskViewSet.visibleTo db u.id)).filter
        (overduePred today)).length) ∧
    ((dashboard_stats db u today).in_progress_tasks =
      ((db.tasks.filter (TaskViewSet.visibleTo db u.id)).filter
        (fun tk => tk.status == "progress")).length) ∧
    ((dashboard_stats db u today).total_projects =
      (db.projects.filter (ProjectViewSet.visibleTo db u.id)).length) ∧
    ((dashboard_stats db u today).active_projects =
      ((db.projects.filter (ProjectViewSet.visibleTo db u.id)).filter
        (fun p => p.status == "active")).length) ∧
    ((dashboard_stats db u today).total_teams =
      ((db.teams.filter (fun t => t.hasUser u.id)).filter
        (fun t => t.is_active)).length) ∧
    (∀ v n, (v, n) ∈ (dashboard_stats db u today).tasks_by_priority ↔
      (v ∈ (db.tasks.filter (TaskViewSet.visibleTo db u.id)).map (fun tk => tk.priority) ∧
        n = (db.tasks.filter (TaskViewSet.visibleTo db u.id)).countP
          (fun tk => tk.priority == v))) ∧
    (∀ v n, (v, n) ∈ (dashboard_stats db u today).tasks_by_status ↔
      (v ∈ (db.tasks.filter (TaskViewSet.visibleTo db u.id)).map (fun tk => tk.status) ∧
        n = (db.tasks.filter (TaskViewSet.visibleTo db u.id)).countP
          (fun tk => tk.status == v))) := by
  have hvt := dashboard_visible_tasks db u.id
  have hvp := dashboard_visible_projects db u.id
  refine ⟨?_, ?_, ?_, ?_, ?_, ?_, ?_, ?_, ?_⟩
  · simp only [dashboard_stats]
    rw [hvt]
  · simp only [dashboard_stats]
    rw [hvt]
  · simp only [dashboard_stats]
    rw [hvt]
    rfl
  · simp only [dashboard_stats]
    rw [hvt]
  · simp only [dashboard_stats]
    rw [hvp]
  · simp only [dashboard_stats]
    rw [hvp]
  · simp only [dashboard_stats]
    rfl
  · intro v n
    simp only [dashboard_stats]
    rw [hvt]
    exact countsBy_mem (fun tk => tk.priority) _ v n
  · intro v n
    simp only [dashboard_stats]
    rw [hvt]
    exact countsBy_mem (fun tk => tk.status) _ v n

/-- Concrete instance of C7: the lone visible task puts ("low", 1) in the
by-priority grouping. -/
theorem dashboard_spec_witness :
    ("low", 1) ∈ (dashboard_stats
      ⟨[⟨1, "A", "", 5, [5], true⟩],
        [⟨10, 1, none, "todo", "low", false, none, none, 0⟩], [], []⟩
      ⟨5, false⟩ 0).tasks_by_priority :=
  ((dashboard_spec ⟨[⟨1, "A", "", 5, [5], true⟩],
      [⟨10, 1, none, "todo", "low", false, none, none, 0⟩], [], []⟩
    ⟨5, false⟩ 0).2.2.2.2.2.2.2.1 "low" 1).mpr (by decide)

/-- C9: calendar event queries return exactly the requester's own events, and
creation stamps the requester as owner regardless of the owner in the payload. -/
theorem calendar_owner_scope (db : DB) (u : User) (e : CalendarEvent)
    (p : EventPayload) (new_id : Nat) :
    (e ∈ CalendarEventViewSet.get_queryset db u ↔
      e ∈ db.events ∧ e.owner_id = u.id) ∧
    ((⟨new_id, u.id, p.title, p.start_time⟩ : CalendarEvent) ∈
      (CalendarEventViewSet.perform_create db u p new_id).events) ∧
    (∀ e2 ∈ (CalendarEventViewSet.perform_create db u p new_id).events,
      e2 ∈ db.events ∨ e2.owner_id = u.id) := by
  refine ⟨?_, ?_, ?_⟩
  · unfold CalendarEventViewSet.get_queryset
    rw [(List.mergeSort_perm _ _).mem_iff]
    simp [List.mem_filter]
  · unfold CalendarEventViewSet.perform_create
    simp
  · intro e2 h2
    unfold CalendarEventViewSet.perform_create at h2
    simp only [List.mem_append, List.mem_singleton] at h2
    rcases h2 with h2 | rfl
    · exact Or.inl h2
    · right
      rfl

/-- Concrete instance of C9: an owner sees their own event in the scoped queryset. -/
theorem calendar_owner_scope_witness :
    (⟨1, 7, "standup", 9⟩ : CalendarEvent) ∈
      CalendarEventViewSet.get_queryset ⟨[], [], [], [⟨1, 7, "standup", 9⟩]⟩ ⟨7, false⟩ :=
  (calendar_owner_scope ⟨[], [], [], [⟨1, 7, "standup", 9⟩]⟩ ⟨7, false⟩
      ⟨1, 7, "standup", 9⟩ ⟨none, "x", 0⟩ 2).1.mpr (by decide)

end ToDo
